import Mathlib

/-!
Verification of the Geser Gemini server (Rust) against its natural-language
specification.  The Rust modules `util.rs`, `pages.rs`, `server.rs`, `tls.rs`
and `cache.rs` are shallowly embedded below: strings are modelled as lists of
Unicode scalar values (`List Nat`), byte strings as lists of bytes
(`List Nat`, each `< 256`), and the asynchronous IO surface (file system, URL
parsing by the `url` crate, markdown event stream produced by
`pulldown-cmark`) is passed in explicitly as function arguments.
-/

namespace Geser

/-! ## UTF-8 (model of Rust `String::from_utf8_lossy` and `str` byte encoding) -/

/-- A UTF-8 continuation byte: `0x80 ..= 0xBF`. -/
def isCont (b : Nat) : Bool := 128 ≤ b && b ≤ 191

/-- Admissible second byte of a three-byte sequence, per the lead byte
(`0xE0` requires `0xA0..=0xBF`, `0xED` requires `0x80..=0x9F`). -/
def cont3 (b1 b2 : Nat) : Bool :=
  if b1 = 224 then 160 ≤ b2 && b2 ≤ 191
  else if b1 = 237 then 128 ≤ b2 && b2 ≤ 159
  else isCont b2

/-- Admissible second byte of a four-byte sequence, per the lead byte
(`0xF0` requires `0x90..=0xBF`, `0xF4` requires `0x80..=0x8F`). -/
def cont4 (b1 b2 : Nat) : Bool :=
  if b1 = 240 then 144 ≤ b2 && b2 ≤ 191
  else if b1 = 244 then 128 ≤ b2 && b2 ≤ 143
  else isCont b2

/-- Fuel-indexed model of Rust `String::from_utf8_lossy` (as used by
`percent_decode_str(..).decode_utf8_lossy()` in `util.rs`): bytes to Unicode
scalar values, replacing each maximal subpart of an ill-formed sequence with
U+FFFD (65533) and continuing at the offending byte.  Each step decodes one
output character, so any fuel at least the byte length is enough. -/
def utf8LossyF : Nat → List Nat → List Nat
  | 0, _ => []
  | _ + 1, [] => []
  | f + 1, b1 :: t1 =>
    if b1 < 128 then b1 :: utf8LossyF f t1
    else if 194 ≤ b1 && b1 ≤ 223 then
      match t1 with
      | b2 :: t2 =>
        if isCont b2 then ((b1 - 192) * 64 + (b2 - 128)) :: utf8LossyF f t2
        else 65533 :: utf8LossyF f (b2 :: t2)
      | [] => [65533]
    else if 224 ≤ b1 && b1 ≤ 239 then
      match t1 with
      | b2 :: t2 =>
        if cont3 b1 b2 then
          match t2 with
          | b3 :: t3 =>
            if isCont b3 then
              ((b1 - 224) * 4096 + (b2 - 128) * 64 + (b3 - 128)) :: utf8LossyF f t3
            else 65533 :: utf8LossyF f (b3 :: t3)
          | [] => [65533]
        else 65533 :: utf8LossyF f (b2 :: t2)
      | [] => [65533]
    else if 240 ≤ b1 && b1 ≤ 244 then
      match t1 with
      | b2 :: t2 =>
        if cont4 b1 b2 then
          match t2 with
          | b3 :: t3 =>
            if isCont b3 then
              match t3 with
              | b4 :: t4 =>
                if isCont b4 then
                  ((b1 - 240) * 262144 + (b2 - 128) * 4096 +
                    (b3 - 128) * 64 + (b4 - 128)) :: utf8LossyF f t4
                else 65533 :: utf8LossyF f (b4 :: t4)
              | [] => [65533]
            else 65533 :: utf8LossyF f (b3 :: t3)
          | [] => [65533]
        else 65533 :: utf8LossyF f (b2 :: t2)
      | [] => [65533]
    else 65533 :: utf8LossyF f t1

/-- Model of `String::from_utf8_lossy`: run the fuel-indexed decoder with
enough fuel for the whole input. -/
def utf8Lossy (bs : List Nat) : List Nat := utf8LossyF bs.length bs

/-- The UTF-8 encoding of one Unicode scalar value (model of how a Rust
`str` stores its characters as bytes). -/
def utf8EncodeChar (c : Nat) : List Nat :=
  if c < 128 then [c]
  else if c < 2048 then [192 + c / 64, 128 + c % 64]
  else if c < 65536 then [224 + c / 4096, 128 + (c / 64) % 64, 128 + c % 64]
  else [240 + c / 262144, 128 + (c / 4096) % 64, 128 + (c / 64) % 64, 128 + c % 64]

/-- The UTF-8 encoding of a sequence of Unicode scalar values. -/
def utf8Encode : List Nat → List Nat
  | [] => []
  | c :: rest => utf8EncodeChar c ++ utf8Encode rest

/-- A valid Unicode scalar value: below the surrogate range or between it and
0x110000. -/
def ValidScalar (c : Nat) : Prop := c < 55296 ∨ (57344 ≤ c ∧ c < 1114112)

/-! ## Percent-decoding (model of the `percent-encoding` crate) -/

/-- ASCII hex digit (as accepted by the `percent-encoding` crate after `%`). -/
def isHexDigit (b : Nat) : Bool :=
  (48 ≤ b && b ≤ 57) || (65 ≤ b && b ≤ 70) || (97 ≤ b && b ≤ 102)

/-- Numeric value of an ASCII hex digit. -/
def hexVal (b : Nat) : Nat :=
  if b ≤ 57 then b - 48 else if b ≤ 70 then b - 55 else b - 87

/-- Model of `percent_decode_str` on the bytes of the input: `%` followed by
two hex digits becomes the denoted byte; any other `%` is passed through
literally. -/
def percentDecode : List Nat → List Nat
  | 37 :: h1 :: h2 :: rest =>
    if isHexDigit h1 && isHexDigit h2 then
      (hexVal h1 * 16 + hexVal h2) :: percentDecode rest
    else 37 :: percentDecode (h1 :: h2 :: rest)
  | b :: rest => b :: percentDecode rest
  | [] => []

/-- `true` when the byte string contains a decodable percent-escape
(`%` followed by two hex digits). -/
def hasEscape : List Nat → Bool
  | 37 :: h1 :: h2 :: rest =>
    (isHexDigit h1 && isHexDigit h2) || hasEscape (h1 :: h2 :: rest)
  | _ :: rest => hasEscape rest
  | [] => false

/-! ## Path components (model of `std::path::Path::components` on Unix) -/

/-- A path component, as in `std::path::Component` (Unix: no prefix). -/
inductive Component
  | rootDir
  | curDir
  | parentDir
  | normal (seg : List Nat)
deriving DecidableEq

/-- Split a (Unicode scalar) string at every `/` (47). -/
def splitOnSlash : List Nat → List (List Nat)
  | [] => [[]]
  | 47 :: rest => [] :: splitOnSlash rest
  | c :: rest =>
    match splitOnSlash rest with
    | s :: ss => (c :: s) :: ss
    | [] => [[c]]

/-- Classify one slash-separated segment as a component; empty segments and
`.` segments are normalised away. -/
def segComponent (seg : List Nat) : Option Component :=
  if seg = [] then none
  else if seg = [46] then none
  else if seg = [46, 46] then some Component.parentDir
  else some (Component.normal seg)

/-- Model of `Path::new(s).components()` on Unix: a leading `/` yields
`RootDir`; a leading `.` (on a relative path) is kept as `CurDir`; empty and
other `.` segments are dropped; `..` is `ParentDir`. -/
def pathComponents (s : List Nat) : List Component :=
  let segs := splitOnSlash s
  let root := if s.head? = some 47 then [Component.rootDir] else []
  let lead :=
    if s.head? ≠ some 47 ∧ segs.head? = some [46] then [Component.curDir] else []
  root ++ lead ++ segs.filterMap segComponent

/-! ## `util.rs`: `sanitize_path` -/

/-- Model of `util::sanitize_path`: the input string (Unicode scalars) is
percent-decoded on its UTF-8 bytes, decoded back to a string lossily, and
rejected when any path component is a parent-directory reference; otherwise
the decoded string is returned unchanged (`Path::to_string_lossy` on a valid
UTF-8 string is the identity). -/
def sanitize_path (p : List Nat) : Except Unit (List Nat) :=
  let decoded := utf8Lossy (percentDecode (utf8Encode p))
  if Component.parentDir ∈ pathComponents decoded then Except.error ()
  else Except.ok decoded

/-- The percent-decoded (and lossily re-decoded) form of an input string. -/
def decodedForm (p : List Nat) : List Nat :=
  utf8Lossy (percentDecode (utf8Encode p))

/-- The scalar values of a Lean string literal (used to write concrete
inputs). -/
def strCodes (s : String) : List Nat := s.data.map Char.toNat

instance {ε α : Type} [DecidableEq ε] [DecidableEq α] : DecidableEq (Except ε α) :=
  fun x y =>
    match x, y with
    | Except.ok a, Except.ok b => decidable_of_iff (a = b) (by simp)
    | Except.error e, Except.error f => decidable_of_iff (e = f) (by simp)
    | Except.ok _, Except.error _ => Decidable.isFalse (by simp)
    | Except.error _, Except.ok _ => Decidable.isFalse (by simp)

example : sanitize_path (strCodes "/about") = Except.ok (strCodes "/about") := by decide
example : sanitize_path (strCodes "/../secret") = Except.error () := by decide
example : sanitize_path (strCodes "%2525") = Except.ok (strCodes "%25") := by decide
example : sanitize_path (strCodes "%25") = Except.ok (strCodes "%") := by decide
example : sanitize_path (strCodes "/..%2Fsecret") = Except.error () := by decide

/-- Render a list of Unicode scalar values back to a Lean string (model of
the Rust `String` the sanitised path is stored in). -/
def codesToStr (l : List Nat) : String := String.mk (l.map Char.ofNat)

/-! ## `pages.rs`: markdown to gemtext conversion -/

/-- The `pulldown-cmark` events handled by `serve_markdown`; every event the
Rust `match` ignores (its final `_ => ()` arm) is collapsed into `other`. -/
inductive Event
  | startHeading (level : Nat)
  | endHeading
  | startParagraph
  | endParagraph
  | startLink (url : String)
  | endLink
  | startImage (url : String) (title : String)
  | code (s : String)
  | text (s : String)
  | softBreak
  | hardBreak
  | other
deriving DecidableEq

/-- The mutable locals of the event loop in `serve_markdown`: the output
buffer and the link-accumulation state. -/
structure ConvState where
  output : String
  in_link : Bool
  link_url : String
  link_text : String
deriving DecidableEq

/-- The Unicode White_Space property — exactly the set Rust
`char::is_whitespace` tests: U+0009–U+000D, U+0020, U+0085, U+00A0, U+1680,
U+2000–U+200A, U+2028, U+2029, U+202F, U+205F, U+3000. -/
def isRustWhitespace (c : Char) : Bool :=
  (9 ≤ c.toNat && c.toNat ≤ 13) || c.toNat = 32 || c.toNat = 133 ||
  c.toNat = 160 || c.toNat = 5760 || (8192 ≤ c.toNat && c.toNat ≤ 8202) ||
  c.toNat = 8232 || c.toNat = 8233 || c.toNat = 8239 || c.toNat = 8287 ||
  c.toNat = 12288

/-- Model of Rust `str::trim`: strip characters with the Unicode White_Space
property from both ends. -/
def trimStr (s : String) : String :=
  String.mk (((s.data.dropWhile isRustWhitespace).reverse.dropWhile
    isRustWhitespace).reverse)

/-- One iteration of the event loop in `serve_markdown` (`pages.rs`). -/
def convStep (st : ConvState) (e : Event) : ConvState :=
  match e with
  | Event.startHeading level =>
    { st with output := st.output ++ "\n" ++ String.mk (List.replicate level '#') ++ " " }
  | Event.endHeading => { st with output := st.output ++ "\n" }
  | Event.startParagraph => { st with output := st.output ++ "\n" }
  | Event.endParagraph => { st with output := st.output ++ "\n" }
  | Event.startLink url => { st with in_link := true, link_url := url, link_text := "" }
  | Event.endLink =>
    let text := if (trimStr st.link_text).isEmpty then st.link_url else st.link_text
    { st with
        in_link := false,
        output := st.output ++ "\n=> " ++ st.link_url ++ " " ++ text ++ "\n" }
  | Event.startImage url title =>
    { st with output := st.output ++ "\n=> " ++ url ++ " " ++ title ++ "\n" }
  | Event.code s => { st with output := st.output ++ "\x60" ++ s ++ "\x60" }
  | Event.text s =>
    if st.in_link then { st with link_text := st.link_text ++ s }
    else { st with output := st.output ++ s }
  | Event.softBreak => { st with output := st.output ++ "\n" }
  | Event.hardBreak => { st with output := st.output ++ "\n" }
  | Event.other => st

/-- The initial converter state (`output`, `in_link`, `link_url`,
`link_text` as initialised in `serve_markdown`). -/
def convInit : ConvState :=
  { output := "", in_link := false, link_url := "", link_text := "" }

/-- Run the whole event loop and return the accumulated output. -/
def convertEvents (events : List Event) : String :=
  (events.foldl convStep convInit).output

/-! ## `pages.rs`: content pipeline (cache and file system) -/

/-- The two namespaces of `cache.rs` (`Cache`), modelled as lookup
functions. -/
structure CacheS where
  textC : String → Option String
  binC : String → Option (List Nat)

/-- The empty cache (`Cache::new`). -/
def emptyCache : CacheS := { textC := fun _ => none, binC := fun _ => none }

/-- `Cache::set_text`. -/
def setText (c : CacheS) (k v : String) : CacheS :=
  { c with textC := fun q => if q = k then some v else c.textC q }

/-- `Cache::set_binary`. -/
def setBin (c : CacheS) (k : String) (v : List Nat) : CacheS :=
  { c with binC := fun q => if q = k then some v else c.binC q }

/-- The file system visible to `tokio::fs`: text reads
(`fs::read_to_string`) and binary reads (`fs::read`); `none` models a read
error (file missing or unreadable). -/
structure Fs where
  textFile : String → Option String
  binFile : String → Option (List Nat)

/-- The file-path resolution at the top of `serve_markdown`. -/
def resolveMd (pages_dir safe_path : String) : String :=
  if safe_path = "/" then pages_dir ++ "/index.md" else pages_dir ++ safe_path ++ ".md"

/-- Model of `serve_markdown` (`pages.rs`): resolve the path, consult the
text cache, otherwise read the file, convert the event stream produced by
the (external) markdown parser, and populate the cache.  The final `Nat` is
instrumentation counting file-system reads performed by the call. -/
def serve_markdown (parse : String → List Event) (fs : Fs)
    (pages_dir safe_path : String) (cache : CacheS) :
    Except Unit (String × CacheS × Nat) :=
  let file_path := resolveMd pages_dir safe_path
  match cache.textC file_path with
  | some content => Except.ok (content, cache, 0)
  | none =>
    match fs.textFile file_path with
    | none => Except.error ()
    | some content =>
      let output := convertEvents (parse content)
      Except.ok (output, setText cache file_path output, 1)

/-- Model of `get_mime_type` (`pages.rs`), with `str::ends_with` rendered as
a suffix test on the character list. -/
def ends_with (s suffix : String) : Bool := suffix.data.isSuffixOf s.data

/-- Model of `get_mime_type` (`pages.rs`). -/
def get_mime_type (path : String) : String :=
  if ends_with path ".jpg" || ends_with path ".jpeg" then "image/jpeg"
  else if ends_with path ".png" then "image/png"
  else if ends_with path ".gif" then "image/gif"
  else "application/octet-stream"

/-- Model of `serve_static_file` (`pages.rs`): resolve to
`pages_dir ++ safe_path` (no extension appended), consult the binary cache,
otherwise read the file and populate the cache; the MIME type is recomputed
from the sanitised path on every call.  The final `Nat` counts file-system
reads. -/
def serve_static_file (fs : Fs) (pages_dir safe_path : String) (cache : CacheS) :
    Except Unit ((List Nat × String) × CacheS × Nat) :=
  let file_path := pages_dir ++ safe_path
  match cache.binC file_path with
  | some data => Except.ok ((data, get_mime_type safe_path), cache, 0)
  | none =>
    match fs.binFile file_path with
    | none => Except.error ()
    | some data =>
      Except.ok ((data, get_mime_type safe_path), setBin cache file_path data, 1)

/-! ## `server.rs`: the connection handler after a successful handshake -/

/-- What `handle_connection` writes to the TLS stream. -/
inductive Body
  | text (s : String)
  | bytes (b : List Nat)
deriving DecidableEq

/-- The observable outcome of `handle_connection` after a successful
handshake: clean EOF (`bytes_read == 0`), an error propagated with `?`
before anything is written (the spawned task only logs it), or a response
header plus optional body. -/
inductive Outcome
  | closed
  | dropped
  | wrote (header : String) (body : Option Body)
deriving DecidableEq

/-- The external collaborators of `handle_connection`: the `url` crate
(`Url::parse` followed by `.path()`, `none` modelling a parse error) and the
content pipeline's file system and markdown parser. -/
structure Ctx where
  parseUrl : String → Option (List Nat)
  fs : Fs
  parse : String → List Event

/-- Model of `handle_connection` (`server.rs`) from the point where the
request line has been read: `none` models `bytes_read == 0` (clean EOF).
URL-parse errors and sanitisation errors are propagated with `?` (no
response is written); serving errors are answered with the `51` status
line; successes with a `20` status line and the body. -/
def handle_connection (ctx : Ctx) (pages_dir : String) (cache : CacheS)
    (request : Option String) : Outcome × CacheS :=
  match request with
  | none => (Outcome.closed, cache)
  | some line =>
    let req := trimStr line
    match ctx.parseUrl req with
    | none => (Outcome.dropped, cache)
    | some pathCodes =>
      match sanitize_path pathCodes with
      | Except.error _ => (Outcome.dropped, cache)
      | Except.ok safeCodes =>
        let safe := codesToStr safeCodes
        if ends_with safe ".jpg" || ends_with safe ".jpeg" ||
           ends_with safe ".png" || ends_with safe ".gif" then
          match serve_static_file ctx.fs pages_dir safe cache with
          | Except.ok ((data, mime), c2, _) =>
            (Outcome.wrote ("20 " ++ mime ++ "\r\n") (some (Body.bytes data)), c2)
          | Except.error _ => (Outcome.wrote "51 Not Found\r\n" none, cache)
        else
          match serve_markdown ctx.parse ctx.fs pages_dir safe cache with
          | Except.ok (content, c2, _) =>
            (Outcome.wrote "20 text/gemini\r\n" (some (Body.text content)), c2)
          | Except.error _ => (Outcome.wrote "51 Not Found\r\n" none, cache)

/-! ## `tls.rs`: certificate loading and the periodic reload task -/

/-- A block of a PEM file as classified by `rustls_pemfile::read_all`. -/
inductive PemItem
  | pkcs8Key (k : List Nat)
  | rsaKey (k : List Nat)
  | certBlock (c : List Nat)
  | otherBlock
deriving DecidableEq

/-- The environment `load_tls_config` runs against: whether each file opens,
what `rustls_pemfile` parses out of it, and whether
`ServerConfig::with_single_cert` accepts the pair (the found key blob is
actually usable with the certificates). -/
structure TlsFs where
  certOpen : Bool
  certsParse : Option (List (List Nat))
  keyOpen : Bool
  keyItems : Option (List PemItem)
  keyUsable : Bool

/-- The distinct failure exits of `load_tls_config`. -/
inductive TlsError
  | openCertFailed
  | certReadFailed
  | openKeyFailed
  | keyReadFailed
  | noValidKey
  | buildFailed
deriving DecidableEq

/-- The key-selection loop of `load_tls_config`: the first `PKCS8Key` or
`RSAKey` item wins (`break`); other items are skipped (`continue`). -/
def findPrivateKey : List PemItem → Option (List Nat)
  | [] => none
  | PemItem.pkcs8Key k :: _ => some k
  | PemItem.rsaKey k :: _ => some k
  | _ :: rest => findPrivateKey rest

/-- Model of `load_tls_config` (`tls.rs`): open and parse the certificate
file, open and parse the key file, pick the first usable private key, build
the server configuration. -/
def load_tls_config (fs : TlsFs) : Except TlsError (List (List Nat) × List Nat) :=
  if fs.certOpen = false then Except.error TlsError.openCertFailed
  else match fs.certsParse with
  | none => Except.error TlsError.certReadFailed
  | some certs =>
    if fs.keyOpen = false then Except.error TlsError.openKeyFailed
    else match fs.keyItems with
    | none => Except.error TlsError.keyReadFailed
    | some items =>
      match findPrivateKey items with
      | none => Except.error TlsError.noValidKey
      | some key =>
        if fs.keyUsable then Except.ok (certs, key) else Except.error TlsError.buildFailed

/-- What one tick of `reload_tls_config_task` logs. -/
inductive LogMsg
  | reloaded (cfg : List (List Nat) × List Nat)
  | reloadFailed
deriving DecidableEq

/-- One tick of the loop body of `reload_tls_config_task` (`tls.rs`) acting
on the server state.  `acceptor` is the TLS configuration the listener's
`TlsAcceptor` in `run_server` was built from.  On a successful reload the
Rust loop only logs the freshly loaded configuration (`info!`) and drops it;
on failure it logs the error; in neither case is the acceptor's
configuration touched. -/
def reload_tick (s : (List (List Nat) × List Nat) × List LogMsg)
    (loadResult : Except TlsError (List (List Nat) × List Nat)) :
    (List (List Nat) × List Nat) × List LogMsg :=
  match loadResult with
  | Except.ok newConfig => (s.fst, s.snd ++ [LogMsg.reloaded newConfig])
  | Except.error _ => (s.fst, s.snd ++ [LogMsg.reloadFailed])

/-- The reload loop run over a finite prefix of its (infinite) schedule:
starting from the configuration the acceptor was built from at startup,
process one load result per elapsed interval. -/
def reloadLoop (init : List (List Nat) × List Nat)
    (results : List (Except TlsError (List (List Nat) × List Nat))) :
    (List (List Nat) × List Nat) × List LogMsg :=
  results.foldl reload_tick (init, [])

/-! ## Concrete scenarios for the witnesses and counterexamples -/

/-- A trivial markdown parse collaborator (no events). -/
def parse0 : String → List Event := fun _ => []

/-- An empty file system. -/
def fsEmpty : Fs := { textFile := fun _ => none, binFile := fun _ => none }

/-- A connection context whose URL parse extracts the path `/../secret`. -/
def ctxTraversal : Ctx :=
  { parseUrl := fun _ => some (strCodes "/../secret"), fs := fsEmpty, parse := parse0 }

/-- A file system holding `pages/example.jpg` with four JPEG magic bytes. -/
def fsJpg : Fs :=
  { textFile := fun _ => none,
    binFile := fun p => if p = "pages/example.jpg" then some [255, 216, 255, 224] else none }

/-- A connection context whose URL parse extracts the path `/example.jpg`. -/
def ctxJpg : Ctx :=
  { parseUrl := fun _ => some (strCodes "/example.jpg"), fs := fsJpg, parse := parse0 }

/-- A file system holding `pages/index.md`. -/
def fsIndex : Fs :=
  { textFile := fun p => if p = "pages/index.md" then some "# Hi" else none,
    binFile := fun _ => none }

/-- A connection context whose URL parse extracts the root path `/`. -/
def ctxRoot : Ctx :=
  { parseUrl := fun _ => some (strCodes "/"), fs := fsIndex, parse := parse0 }

/-- A cache already holding converted text for `pages/index.md`. -/
def cacheIndex : CacheS := setText emptyCache "pages/index.md" "cached gemtext"

/-- A file system whose `pages/index.md` changed on disk after it was
cached. -/
def fsIndexChanged : Fs :=
  { textFile := fun p => if p = "pages/index.md" then some "# Changed" else none,
    binFile := fun _ => none }

/-! ## Lemmas about the UTF-8 model -/

theorem validScalar_65533 : ValidScalar 65533 := by unfold ValidScalar; omega

theorem valid2 {b1 b2 : Nat} (h1 : (194 ≤ b1 && b1 ≤ 223) = true)
    (h2 : isCont b2 = true) : ValidScalar ((b1 - 192) * 64 + (b2 - 128)) := by
  simp only [Bool.and_eq_true, decide_eq_true_eq] at h1
  unfold isCont at h2
  simp only [Bool.and_eq_true, decide_eq_true_eq] at h2
  unfold ValidScalar
  omega

theorem valid3 {b1 b2 b3 : Nat} (h1 : (224 ≤ b1 && b1 ≤ 239) = true)
    (h2 : cont3 b1 b2 = true) (h3 : isCont b3 = true) :
    ValidScalar ((b1 - 224) * 4096 + (b2 - 128) * 64 + (b3 - 128)) := by
  simp only [Bool.and_eq_true, decide_eq_true_eq] at h1
  unfold isCont at h3
  simp only [Bool.and_eq_true, decide_eq_true_eq] at h3
  unfold cont3 at h2
  unfold ValidScalar
  split at h2 <;>
    [skip; split at h2] <;>
    simp only [isCont, Bool.and_eq_true, decide_eq_true_eq] at h2 <;>
    omega

theorem valid4 {b1 b2 b3 b4 : Nat} (h1 : (240 ≤ b1 && b1 ≤ 244) = true)
    (h2 : cont4 b1 b2 = true) (h3 : isCont b3 = true) (h4 : isCont b4 = true) :
    ValidScalar ((b1 - 240) * 262144 + (b2 - 128) * 4096 + (b3 - 128) * 64 + (b4 - 128)) := by
  simp only [Bool.and_eq_true, decide_eq_true_eq] at h1
  unfold isCont at h3 h4
  simp only [Bool.and_eq_true, decide_eq_true_eq] at h3 h4
  unfold cont4 at h2
  unfold ValidScalar
  split at h2 <;>
    [skip; split at h2] <;>
    simp only [isCont, Bool.and_eq_true, decide_eq_true_eq] at h2 <;>
    omega

set_option maxRecDepth 8192 in
/-- Every scalar produced by the lossy decoder is a valid Unicode scalar
value. -/
theorem utf8LossyF_valid : ∀ (f : Nat) (bs : List Nat), ∀ c ∈ utf8LossyF f bs, ValidScalar c := by
  intro f bs
  induction f, bs using utf8LossyF.induct with
  | case1 x => intro c hc; simp [utf8LossyF] at hc
  | case2 n => intro c hc; simp [utf8LossyF] at hc
  | case3 f b1 t1 h1 ih =>
    intro c hc
    simp only [utf8LossyF, if_pos h1, List.mem_cons] at hc
    rcases hc with rfl | hc
    · unfold ValidScalar; omega
    · exact ih c hc
  | case4 f b1 h1 h2 b2 t2 h3 ih =>
    intro c hc
    simp only [utf8LossyF, if_neg h1, if_pos h2, if_pos h3, List.mem_cons] at hc
    rcases hc with rfl | hc
    · exact valid2 h2 h3
    · exact ih c hc
  | case5 f b1 h1 h2 b2 t2 h3 ih =>
    intro c hc
    simp only [utf8LossyF, if_neg h1, if_pos h2, if_neg h3, List.mem_cons] at hc
    rcases hc with rfl | hc
    · exact validScalar_65533
    · exact ih c hc
  | case6 f b1 h1 h2 =>
    intro c hc
    simp only [utf8LossyF, if_neg h1, if_pos h2, List.mem_cons, List.not_mem_nil,
      or_false] at hc
    subst hc
    exact validScalar_65533
  | case7 f b1 h1 h2 h3 b2 h4 b3 t3 h5 ih =>
    intro c hc
    simp only [utf8LossyF, if_neg h1, if_neg h2, if_pos h3, if_pos h4, if_pos h5,
      List.mem_cons] at hc
    rcases hc with rfl | hc
    · exact valid3 h3 h4 h5
    · exact ih c hc
  | case8 f b1 h1 h2 h3 b2 h4 b3 t3 h5 ih =>
    intro c hc
    simp only [utf8LossyF, if_neg h1, if_neg h2, if_pos h3, if_pos h4, if_neg h5,
      List.mem_cons] at hc
    rcases hc with rfl | hc
    · exact validScalar_65533
    · exact ih c hc
  | case9 f b1 h1 h2 h3 b2 h4 =>
    intro c hc
    simp only [utf8LossyF, if_neg h1, if_neg h2, if_pos h3, if_pos h4, List.mem_cons,
      List.not_mem_nil, or_false] at hc
    subst hc
    exact validScalar_65533
  | case10 f b1 h1 h2 h3 b2 t2 h4 ih =>
    intro c hc
    simp only [utf8LossyF, if_neg h1, if_neg h2, if_pos h3, if_neg h4, List.mem_cons] at hc
    rcases hc with rfl | hc
    · exact validScalar_65533
    · exact ih c hc
  | case11 f b1 h1 h2 h3 =>
    intro c hc
    simp only [utf8LossyF, if_neg h1, if_neg h2, if_pos h3, List.mem_cons,
      List.not_mem_nil, or_false] at hc
    subst hc
    exact validScalar_65533
  | case12 f b1 h1 h2 h3 h4 b2 h5 b3 h6 b4 t4 h7 ih =>
    intro c hc
    simp only [utf8LossyF, if_neg h1, if_neg h2, if_neg h3, if_pos h4, if_pos h5, if_pos h6,
      if_pos h7, List.mem_cons] at hc
    rcases hc with rfl | hc
    · exact valid4 h4 h5 h6 h7
    · exact ih c hc
  | case13 f b1 h1 h2 h3 h4 b2 h5 b3 h6 b4 t4 h7 ih =>
    intro c hc
    simp only [utf8LossyF, if_neg h1, if_neg h2, if_neg h3, if_pos h4, if_pos h5, if_pos h6,
      if_neg h7, List.mem_cons] at hc
    rcases hc with rfl | hc
    · exact validScalar_65533
    · exact ih c hc
  | case14 f b1 h1 h2 h3 h4 b2 h5 b3 h6 =>
    intro c hc
    simp only [utf8LossyF, if_neg h1, if_neg h2, if_neg h3, if_pos h4, if_pos h5, if_pos h6,
      List.mem_cons, List.not_mem_nil, or_false] at hc
    subst hc
    exact validScalar_65533
  | case15 f b1 h1 h2 h3 h4 b2 h5 b3 t3 h6 ih =>
    intro c hc
    simp only [utf8LossyF, if_neg h1, if_neg h2, if_neg h3, if_pos h4, if_pos h5, if_neg h6,
      List.mem_cons] at hc
    rcases hc with rfl | hc
    · exact validScalar_65533
    · exact ih c hc
  | case16 f b1 h1 h2 h3 h4 b2 h5 =>
    intro c hc
    simp only [utf8LossyF, if_neg h1, if_neg h2, if_neg h3, if_pos h4, if_pos h5,
      List.mem_cons, List.not_mem_nil, or_false] at hc
    subst hc
    exact validScalar_65533
  | case17 f b1 h1 h2 h3 h4 b2 t2 h5 ih =>
    intro c hc
    simp only [utf8LossyF, if_neg h1, if_neg h2, if_neg h3, if_pos h4, if_neg h5,
      List.mem_cons] at hc
    rcases hc with rfl | hc
    · exact validScalar_65533
    · exact ih c hc
  | case18 f b1 h1 h2 h3 h4 =>
    intro c hc
    simp only [utf8LossyF, if_neg h1, if_neg h2, if_neg h3, if_pos h4, List.mem_cons,
      List.not_mem_nil, or_false] at hc
    subst hc
    exact validScalar_65533
  | case19 f b1 t1 h1 h2 h3 h4 ih =>
    intro c hc
    simp only [utf8LossyF, if_neg h1, if_neg h2, if_neg h3, if_neg h4, List.mem_cons] at hc
    rcases hc with rfl | hc
    · exact validScalar_65533
    · exact ih c hc

theorem utf8Lossy_valid (bs : List Nat) : ∀ c ∈ utf8Lossy bs, ValidScalar c :=
  utf8LossyF_valid bs.length bs

set_option maxRecDepth 8192 in
/-- Decoding the UTF-8 encoding of one valid scalar consumes exactly its
bytes and yields the scalar back. -/
theorem utf8LossyF_encodeChar (f : Nat) (c : Nat) (rest : List Nat) (h : ValidScalar c) :
    utf8LossyF (f + 1) (utf8EncodeChar c ++ rest) = c :: utf8LossyF f rest := by
  unfold ValidScalar at h
  unfold utf8EncodeChar
  by_cases h1 : c < 128
  · rw [if_pos h1]
    simp only [List.cons_append, List.nil_append]
    simp only [utf8LossyF, if_pos h1]
  · rw [if_neg h1]
    by_cases h2 : c < 2048
    · rw [if_pos h2]
      simp only [List.cons_append, List.nil_append]
      simp only [utf8LossyF]
      rw [if_neg (by omega),
        if_pos (show (194 ≤ 192 + c / 64 && 192 + c / 64 ≤ 223) = true by
          simp only [Bool.and_eq_true, decide_eq_true_eq]; omega),
        if_pos (show isCont (128 + c % 64) = true by
          unfold isCont; simp only [Bool.and_eq_true, decide_eq_true_eq]; omega)]
      congr 1
      omega
    · by_cases h3 : c < 65536
      · rw [if_neg h2, if_pos h3]
        simp only [List.cons_append, List.nil_append]
        simp only [utf8LossyF]
        have hcont : cont3 (224 + c / 4096) (128 + (c / 64) % 64) = true := by
          unfold cont3
          split
          · simp only [Bool.and_eq_true, decide_eq_true_eq]
            omega
          · split
            · simp only [Bool.and_eq_true, decide_eq_true_eq]
              omega
            · unfold isCont
              simp only [Bool.and_eq_true, decide_eq_true_eq]
              omega
        rw [if_neg (by omega),
          if_neg (show ¬(194 ≤ 224 + c / 4096 && 224 + c / 4096 ≤ 223) = true by
            simp only [Bool.and_eq_true, decide_eq_true_eq]; omega),
          if_pos (show (224 ≤ 224 + c / 4096 && 224 + c / 4096 ≤ 239) = true by
            simp only [Bool.and_eq_true, decide_eq_true_eq]; omega),
          if_pos hcont,
          if_pos (show isCont (128 + c % 64) = true by
            unfold isCont; simp only [Bool.and_eq_true, decide_eq_true_eq]; omega)]
        congr 1
        omega
      · rw [if_neg h2, if_neg h3]
        simp only [List.cons_append, List.nil_append]
        simp only [utf8LossyF]
        have hcont : cont4 (240 + c / 262144) (128 + (c / 4096) % 64) = true := by
          unfold cont4
          split
          · simp only [Bool.and_eq_true, decide_eq_true_eq]
            omega
          · split
            · simp only [Bool.and_eq_true, decide_eq_true_eq]
              omega
            · unfold isCont
              simp only [Bool.and_eq_true, decide_eq_true_eq]
              omega
        rw [if_neg (by omega),
          if_neg (show ¬(194 ≤ 240 + c / 262144 && 240 + c / 262144 ≤ 223) = true by
            simp only [Bool.and_eq_true, decide_eq_true_eq]; omega),
          if_neg (show ¬(224 ≤ 240 + c / 262144 && 240 + c / 262144 ≤ 239) = true by
            simp only [Bool.and_eq_true, decide_eq_true_eq]; omega),
          if_pos (show (240 ≤ 240 + c / 262144 && 240 + c / 262144 ≤ 244) = true by
            simp only [Bool.and_eq_true, decide_eq_true_eq]; omega),
          if_pos hcont,
          if_pos (show isCont (128 + (c / 64) % 64) = true by
            unfold isCont; simp only [Bool.and_eq_true, decide_eq_true_eq]; omega),
          if_pos (show isCont (128 + c % 64) = true by
            unfold isCont; simp only [Bool.and_eq_true, decide_eq_true_eq]; omega)]
        congr 1
        omega

theorem utf8EncodeChar_length_pos (c : Nat) : 0 < (utf8EncodeChar c).length := by
  unfold utf8EncodeChar
  repeat' split
  all_goals simp

theorem length_le_utf8Encode : ∀ l : List Nat, l.length ≤ (utf8Encode l).length := by
  intro l
  induction l with
  | nil => simp [utf8Encode]
  | cons c rest ih =>
    simp only [utf8Encode, List.length_append, List.length_cons]
    have := utf8EncodeChar_length_pos c
    omega

theorem utf8LossyF_encode : ∀ (l : List Nat) (f : Nat), (∀ c ∈ l, ValidScalar c) →
    l.length ≤ f → utf8LossyF f (utf8Encode l) = l := by
  intro l
  induction l with
  | nil =>
    intro f _ _
    cases f <;> simp [utf8Encode, utf8LossyF]
  | cons c rest ih =>
    intro f hv hf
    cases f with
    | zero => simp at hf
    | succ g =>
      rw [show utf8Encode (c :: rest) = utf8EncodeChar c ++ utf8Encode rest from rfl]
      rw [utf8LossyF_encodeChar g c _ (hv c (List.mem_cons_self c rest))]
      rw [ih g (fun x hx => hv x (List.mem_cons_of_mem c hx))
        (by simp only [List.length_cons] at hf; omega)]

/-- Decoding the UTF-8 encoding of a valid scalar string is the identity. -/
theorem utf8Lossy_encode (l : List Nat) (hv : ∀ c ∈ l, ValidScalar c) :
    utf8Lossy (utf8Encode l) = l := by
  unfold utf8Lossy
  exact utf8LossyF_encode l _ hv (length_le_utf8Encode l)

/-- Percent-decoding is the identity on byte strings without a decodable
escape. -/
theorem percentDecode_noEscape : ∀ bs, hasEscape bs = false → percentDecode bs = bs := by
  intro bs
  induction bs using percentDecode.induct with
  | case1 h1 h2 rest hhex ih =>
    intro h
    rw [hasEscape] at h
    simp [hhex] at h
  | case2 h1 h2 rest hhex ih =>
    intro h
    rw [hasEscape] at h
    simp only [Bool.or_eq_false_iff] at h
    rw [percentDecode, if_neg hhex, ih h.2]
  | case3 b rest hne ih =>
    intro h
    rw [percentDecode.eq_2 b rest hne, ih]
    rw [hasEscape.eq_2 b rest hne] at h
    exact h
  | case4 => intro _; rfl

/-! ## Lemmas about the reload loop and the MIME table -/

/-- No tick of the reload loop ever changes the configuration the acceptor
was built from. -/
theorem reload_foldl_fst :
    ∀ (l : List (Except TlsError (List (List Nat) × List Nat)))
      (s : (List (List Nat) × List Nat) × List LogMsg),
      (l.foldl reload_tick s).fst = s.fst := by
  intro l
  induction l with
  | nil => intro s; rfl
  | cons r rest ih =>
    intro s
    rw [List.foldl_cons, ih]
    cases r <;> rfl

/-- The log accumulated by the reload loop factors through its starting
log. -/
theorem reload_foldl_log :
    ∀ (l : List (Except TlsError (List (List Nat) × List Nat)))
      (a : List (List Nat) × List Nat) (log : List LogMsg),
      (l.foldl reload_tick (a, log)).snd = log ++ (l.foldl reload_tick (a, [])).snd := by
  intro l
  induction l with
  | nil => intro a log; simp
  | cons r rest ih =>
    intro a log
    rw [List.foldl_cons, List.foldl_cons]
    cases r with
    | ok cfg =>
      show (rest.foldl reload_tick (a, log ++ [LogMsg.reloaded cfg])).snd = _
      rw [ih a (log ++ [LogMsg.reloaded cfg])]
      show _ = log ++ (rest.foldl reload_tick (a, [] ++ [LogMsg.reloaded cfg])).snd
      rw [ih a ([] ++ [LogMsg.reloaded cfg])]
      simp
    | error e =>
      show (rest.foldl reload_tick (a, log ++ [LogMsg.reloadFailed])).snd = _
      rw [ih a (log ++ [LogMsg.reloadFailed])]
      show _ = log ++ (rest.foldl reload_tick (a, [] ++ [LogMsg.reloadFailed])).snd
      rw [ih a ([] ++ [LogMsg.reloadFailed])]
      simp

/-- Two suffixes of the same string: one is a suffix of the other. -/
theorem ends_with_both {s t1 t2 : String} (h1 : ends_with s t1 = true)
    (h2 : ends_with s t2 = true) :
    t1.data <:+ t2.data ∨ t2.data <:+ t1.data := by
  unfold ends_with at h1 h2
  rw [List.isSuffixOf_iff_suffix] at h1 h2
  exact List.suffix_or_suffix_of_suffix h1 h2

theorem mime_jpg {s : String} (h : ends_with s ".jpg" = true) :
    get_mime_type s = "image/jpeg" := by
  unfold get_mime_type
  rw [if_pos (by simp [h])]

theorem mime_jpeg {s : String} (h : ends_with s ".jpeg" = true) :
    get_mime_type s = "image/jpeg" := by
  unfold get_mime_type
  rw [if_pos (by simp [h])]

theorem mime_png {s : String} (h : ends_with s ".png" = true) :
    get_mime_type s = "image/png" := by
  unfold get_mime_type
  have hj : ends_with s ".jpg" = false := by
    cases hj : ends_with s ".jpg"
    · rfl
    · rcases ends_with_both hj h with hs | hs <;> exact absurd hs (by decide)
  have hje : ends_with s ".jpeg" = false := by
    cases hje : ends_with s ".jpeg"
    · rfl
    · rcases ends_with_both hje h with hs | hs <;> exact absurd hs (by decide)
  rw [if_neg (by simp [hj, hje]), if_pos h]

theorem mime_gif {s : String} (h : ends_with s ".gif" = true) :
    get_mime_type s = "image/gif" := by
  unfold get_mime_type
  have hj : ends_with s ".jpg" = false := by
    cases hj : ends_with s ".jpg"
    · rfl
    · rcases ends_with_both hj h with hs | hs <;> exact absurd hs (by decide)
  have hje : ends_with s ".jpeg" = false := by
    cases hje : ends_with s ".jpeg"
    · rfl
    · rcases ends_with_both hje h with hs | hs <;> exact absurd hs (by decide)
  have hp : ends_with s ".png" = false := by
    cases hp : ends_with s ".png"
    · rfl
    · rcases ends_with_both hp h with hs | hs <;> exact absurd hs (by decide)
  rw [if_neg (by simp [hj, hje]), if_neg (by simp [hp]), if_pos h]

/-- A sanitised path dispatched to the static-file branch always gets one of
the three image MIME types. -/
theorem dispatch_mime {s : String}
    (h : (ends_with s ".jpg" || ends_with s ".jpeg" ||
          ends_with s ".png" || ends_with s ".gif") = true) :
    get_mime_type s = "image/jpeg" ∨ get_mime_type s = "image/png" ∨
      get_mime_type s = "image/gif" := by
  simp only [Bool.or_eq_true] at h
  rcases h with ((h | h) | h) | h
  · exact Or.inl (mime_jpg h)
  · exact Or.inl (mime_jpeg h)
  · exact Or.inr (Or.inl (mime_png h))
  · exact Or.inr (Or.inr (mime_gif h))

/-- The MIME type returned on a successful static-file serve is always the
pure extension lookup on the sanitised path. -/
theorem serve_static_mime {fs : Fs} {pd sp : String} {cache : CacheS}
    {data : List Nat} {mime : String} {c2 : CacheS} {n : Nat}
    (h : serve_static_file fs pd sp cache = Except.ok ((data, mime), c2, n)) :
    mime = get_mime_type sp := by
  simp only [serve_static_file] at h
  split at h
  · simp only [Except.ok.injEq, Prod.mk.injEq] at h
    exact h.1.2.symm
  · split at h
    · simp at h
    · simp only [Except.ok.injEq, Prod.mk.injEq] at h
      exact h.1.2.symm

/-! ## The claims -/

/-- Claim C1, counterexample: on a connection whose extracted request path
is `/../secret`, sanitisation fails and the handler drops the connection
with no response at all — it does not write the `51` status line. -/
theorem c1_counterexample :
    (handle_connection ctxTraversal "pages" emptyCache
        (some "gemini://example.com/../secret")).fst = Outcome.dropped ∧
    (handle_connection ctxTraversal "pages" emptyCache
        (some "gemini://example.com/../secret")).fst ≠
      Outcome.wrote "51 Not Found\r\n" none := by
  decide

/-- Claim C1 (amended): after a successful handshake and a non-empty request
line, a URL-parse failure or a sanitisation failure makes the handler
propagate the error with no response written (the connection is dropped);
only errors while serving an already-sanitised path are answered with the
`51 Not Found` status line and no body. -/
theorem c1_parse_or_sanitize_failure_drops
    (ctx : Ctx) (pd : String) (cache : CacheS) (line : String)
    (path safeCodes : List Nat) :
    (ctx.parseUrl (trimStr line) = none →
      (handle_connection ctx pd cache (some line)).fst = Outcome.dropped) ∧
    (ctx.parseUrl (trimStr line) = some path → sanitize_path path = Except.error () →
      (handle_connection ctx pd cache (some line)).fst = Outcome.dropped) ∧
    (ctx.parseUrl (trimStr line) = some path → sanitize_path path = Except.ok safeCodes →
      (ends_with (codesToStr safeCodes) ".jpg" || ends_with (codesToStr safeCodes) ".jpeg" ||
       ends_with (codesToStr safeCodes) ".png" || ends_with (codesToStr safeCodes) ".gif")
        = true →
      serve_static_file ctx.fs pd (codesToStr safeCodes) cache = Except.error () →
      (handle_connection ctx pd cache (some line)).fst =
        Outcome.wrote "51 Not Found\r\n" none) ∧
    (ctx.parseUrl (trimStr line) = some path → sanitize_path path = Except.ok safeCodes →
      (ends_with (codesToStr safeCodes) ".jpg" || ends_with (codesToStr safeCodes) ".jpeg" ||
       ends_with (codesToStr safeCodes) ".png" || ends_with (codesToStr safeCodes) ".gif")
        = false →
      serve_markdown ctx.parse ctx.fs pd (codesToStr safeCodes) cache = Except.error () →
      (handle_connection ctx pd cache (some line)).fst =
        Outcome.wrote "51 Not Found\r\n" none) := by
  refine ⟨?_, ?_, ?_, ?_⟩
  · intro hp
    simp [handle_connection, hp]
  · intro hp hs
    simp [handle_connection, hp, hs]
  · intro hp hs hd hserve
    simp [handle_connection, hp, hs, hd, hserve]
  · intro hp hs hd hserve
    simp [handle_connection, hp, hs, hd, hserve]

/-- Claim C1, witness: instantiating the amended claim on the `/../secret`
connection. -/
theorem c1_witness :
    (handle_connection ctxTraversal "pages" emptyCache
        (some "gemini://example.com/../secret")).fst = Outcome.dropped :=
  (c1_parse_or_sanitize_failure_drops ctxTraversal "pages" emptyCache
      "gemini://example.com/../secret" (strCodes "/../secret") []).2.1 rfl (by decide)

/-- Claim C2: the reload task never swaps the acceptor's TLS configuration.
First conjunct: after any schedule of reload results, the configuration the
acceptor was built from is still the startup one.  The remaining conjuncts
evaluate the failing input: one successful reload of different material is
only logged, and the running configuration still differs from the freshly
loaded one. -/
theorem c2_reload_ignores_new_material :
    (∀ init results, (reloadLoop init results).fst = init) ∧
    (reloadLoop ([[0]], [0]) [Except.ok ([[1]], [1])]).fst = ([[0]], [0]) ∧
    (reloadLoop ([[0]], [0]) [Except.ok ([[1]], [1])]).snd =
      [LogMsg.reloaded ([[1]], [1])] ∧
    (([[0]], [0]) : List (List Nat) × List Nat) ≠ ([[1]], [1]) := by
  exact ⟨fun init results => reload_foldl_fst results (init, []),
    by decide, by decide, by decide⟩

/-- Claim C3: an input whose percent-decoded form contains a `..` path
component is rejected with the traversal error; an input with no such
component is accepted, and the decoded string is returned unchanged. -/
theorem c3_sanitize_traversal (p : List Nat) :
    (Component.parentDir ∈ pathComponents (decodedForm p) →
      sanitize_path p = Except.error ()) ∧
    (Component.parentDir ∉ pathComponents (decodedForm p) →
      sanitize_path p = Except.ok (decodedForm p)) := by
  unfold sanitize_path decodedForm
  constructor
  · intro h
    rw [if_pos h]
  · intro h
    rw [if_neg h]

/-- Claim C3, witness: the request path `/../secret` decodes to itself, has
a parent-directory component, and is rejected. -/
theorem c3_witness :
    Component.parentDir ∈ pathComponents (decodedForm (strCodes "/../secret")) ∧
    sanitize_path (strCodes "/../secret") = Except.error () :=
  ⟨by decide, (c3_sanitize_traversal (strCodes "/../secret")).1 (by decide)⟩

/-- Claim C4, counterexample: sanitisation is not idempotent.  On the input
`%2525` the first pass succeeds with `%25`, a second pass on that output
succeeds with `%`, and the two results differ. -/
theorem c4_counterexample :
    sanitize_path (strCodes "%2525") = Except.ok (strCodes "%25") ∧
    sanitize_path (strCodes "%25") = Except.ok (strCodes "%") ∧
    strCodes "%25" ≠ strCodes "%" := by
  decide

/-- Claim C4 (amended): sanitisation is idempotent on every input whose
sanitised output contains no remaining percent-escape: if `sanitize_path p`
succeeds with `q` and the UTF-8 encoding of `q` has no `%`-escape, then
sanitising `q` succeeds and returns `q` unchanged. -/
theorem c4_idempotent_on_escape_free (p q : List Nat)
    (h : sanitize_path p = Except.ok q)
    (hesc : hasEscape (utf8Encode q) = false) :
    sanitize_path q = Except.ok q := by
  unfold sanitize_path at h
  by_cases hmem :
      Component.parentDir ∈ pathComponents (utf8Lossy (percentDecode (utf8Encode p)))
  · rw [if_pos hmem] at h
    simp at h
  · rw [if_neg hmem] at h
    simp only [Except.ok.injEq] at h
    subst h
    have hvalid := utf8Lossy_valid (percentDecode (utf8Encode p))
    unfold sanitize_path
    rw [percentDecode_noEscape _ hesc, utf8Lossy_encode _ hvalid, if_neg hmem]

/-- Claim C4, witness: instantiating the amended idempotence on `/about`. -/
theorem c4_witness :
    sanitize_path (strCodes "/about") = Except.ok (strCodes "/about") :=
  c4_idempotent_on_escape_free (strCodes "/about") (strCodes "/about")
    (by decide) (by decide)

/-- Claim C5: text inside a link is accumulated into the link buffer and
leaves the output untouched; link end emits a newline, then
`=> url text` (with the URL as fallback when the text trims — under the
Unicode White_Space property `str::trim` uses — to empty), then a newline.
The last three conjuncts run the converter on the two scenarios of the
claim plus a link whose accumulated text is a lone no-break space (U+00A0),
which trims to empty and falls back to the URL. -/
theorem c5_link_conversion :
    (∀ (st : ConvState) (t : String), st.in_link = true →
      convStep st (Event.text t) = { st with link_text := st.link_text ++ t }) ∧
    (∀ st : ConvState, convStep st Event.endLink =
      { st with
          in_link := false,
          output := st.output ++ "\n=> " ++ st.link_url ++ " " ++
            (if (trimStr st.link_text).isEmpty then st.link_url else st.link_text) ++ "\n" }) ∧
    convertEvents [Event.startLink "https://x", Event.text "Go", Event.endLink] =
      "\n=> https://x Go\n" ∧
    convertEvents [Event.startLink "https://x", Event.endLink] =
      "\n=> https://x https://x\n" ∧
    convertEvents [Event.startLink "https://x", Event.text "\u00A0", Event.endLink] =
      "\n=> https://x https://x\n" := by
  refine ⟨?_, fun st => rfl, by decide, by decide, by decide⟩
  intro st t h
  simp [convStep, h]

/-- Claim C5, witness: a text event in the in-link state appends to the link
buffer. -/
theorem c5_witness :
    convStep { output := "", in_link := true, link_url := "https://x", link_text := "" }
      (Event.text "Go") =
    { output := "", in_link := true, link_url := "https://x", link_text := "Go" } := by
  have h := c5_link_conversion.1
    { output := "", in_link := true, link_url := "https://x", link_text := "" } "Go" rfl
  exact h

/-- Claim C6: heading start emits a newline, `level` many `#` and a space;
heading end, paragraph start and paragraph end each emit one newline; the
final conjunct runs the converter on the heading-then-paragraph scenario of
the claim. -/
theorem c6_heading_paragraph :
    (∀ (st : ConvState) (level : Nat), convStep st (Event.startHeading level) =
      { st with output := st.output ++ "\n" ++ String.mk (List.replicate level '#') ++ " " }) ∧
    (∀ st : ConvState, convStep st Event.endHeading =
      { st with output := st.output ++ "\n" }) ∧
    (∀ st : ConvState, convStep st Event.startParagraph =
      { st with output := st.output ++ "\n" }) ∧
    (∀ st : ConvState, convStep st Event.endParagraph =
      { st with output := st.output ++ "\n" }) ∧
    convertEvents [Event.startHeading 1, Event.text "Hello World", Event.endHeading,
      Event.startParagraph, Event.text "Welcome!", Event.endParagraph] =
      "\n# Hello World\n\nWelcome!\n" := by
  exact ⟨fun st level => rfl, fun st => rfl, fun st => rfl, fun st => rfl, by decide⟩

/-- Claim C7: the resolved path is `<pages_dir>/index.md` for the root path
and `<pages_dir><safe_path>.md` otherwise; and after any successful call the
cache holds the result, so a repeat call with the same directory and path
returns the same text with zero file-system reads — whatever the file system
(and parser) look like by then. -/
theorem c7_markdown_resolution_and_memoization :
    (∀ pd : String, resolveMd pd "/" = pd ++ "/index.md") ∧
    (∀ pd sp : String, sp ≠ "/" → resolveMd pd sp = pd ++ sp ++ ".md") ∧
    (∀ (parse : String → List Event) (fs : Fs) (pd sp : String) (cache : CacheS)
       (out : String) (cache2 : CacheS) (r : Nat),
      serve_markdown parse fs pd sp cache = Except.ok (out, cache2, r) →
      ∀ (parse2 : String → List Event) (fs2 : Fs),
        serve_markdown parse2 fs2 pd sp cache2 = Except.ok (out, cache2, 0)) := by
  refine ⟨fun pd => rfl, fun pd sp h => by simp [resolveMd, h], ?_⟩
  intro parse fs pd sp cache out cache2 r h parse2 fs2
  simp only [serve_markdown] at h ⊢
  cases hc : cache.textC (resolveMd pd sp) with
  | some content =>
    rw [hc] at h
    simp only [Except.ok.injEq, Prod.mk.injEq] at h
    obtain ⟨rfl, rfl, rfl⟩ := h
    rw [hc]
  | none =>
    rw [hc] at h
    cases hf : fs.textFile (resolveMd pd sp) with
    | none =>
      rw [hf] at h
      simp at h
    | some content =>
      rw [hf] at h
      simp only [Except.ok.injEq, Prod.mk.injEq] at h
      obtain ⟨rfl, rfl, rfl⟩ := h
      simp [setText]

/-- Claim C7, witness: with `pages/index.md` already cached, a repeat
request for `/` returns the cached text with no file-system read, even
though the file changed on disk. -/
theorem c7_witness :
    serve_markdown parse0 fsIndexChanged "pages" "/" cacheIndex =
      Except.ok ("cached gemtext", cacheIndex, 0) :=
  c7_markdown_resolution_and_memoization.2.2 parse0 fsIndex "pages" "/" cacheIndex
    "cached gemtext" cacheIndex 0 rfl parse0 fsIndexChanged

/-- Claim C8: a static file is resolved to `<pages_dir><safe_path>` with no
extension appended and served as its exact bytes, with the MIME type looked
up purely from the path's extension; the final conjunct runs the whole
connection handler on `/example.jpg` over a file holding the four JPEG magic
bytes. -/
theorem c8_static_file_serving :
    (∀ (fs : Fs) (pd sp : String) (cache : CacheS) (data : List Nat),
      cache.binC (pd ++ sp) = none → fs.binFile (pd ++ sp) = some data →
      serve_static_file fs pd sp cache =
        Except.ok ((data, get_mime_type sp), setBin cache (pd ++ sp) data, 1)) ∧
    (∀ sp, ends_with sp ".jpg" = true → get_mime_type sp = "image/jpeg") ∧
    (∀ sp, ends_with sp ".jpeg" = true → get_mime_type sp = "image/jpeg") ∧
    (∀ sp, ends_with sp ".png" = true → get_mime_type sp = "image/png") ∧
    (∀ sp, ends_with sp ".gif" = true → get_mime_type sp = "image/gif") ∧
    (∀ sp, ends_with sp ".jpg" = false → ends_with sp ".jpeg" = false →
      ends_with sp ".png" = false → ends_with sp ".gif" = false →
      get_mime_type sp = "application/octet-stream") ∧
    (handle_connection ctxJpg "pages" emptyCache
        (some "gemini://example.com/example.jpg")).fst =
      Outcome.wrote "20 image/jpeg\r\n" (some (Body.bytes [255, 216, 255, 224])) := by
  refine ⟨?_, fun sp h => mime_jpg h, fun sp h => mime_jpeg h, fun sp h => mime_png h,
    fun sp h => mime_gif h, ?_, by decide⟩
  · intro fs pd sp cache data hc hf
    simp [serve_static_file, hc, hf]
  · intro sp h1 h2 h3 h4
    simp [get_mime_type, h1, h2, h3, h4]

/-- Claim C8, witness: instantiating the cache-miss serve on the JPEG
scenario. -/
theorem c8_witness :
    serve_static_file fsJpg "pages" "/example.jpg" emptyCache =
      Except.ok (([255, 216, 255, 224], get_mime_type "/example.jpg"),
        setBin emptyCache ("pages" ++ "/example.jpg") [255, 216, 255, 224], 1) :=
  c8_static_file_serving.1 fsJpg "pages" "/example.jpg" emptyCache
    [255, 216, 255, 224] rfl (by decide)

/-- Claim C9: loading the TLS material fails exactly when the certificate
file does not open or parse, the key file does not open or parse, no
PKCS#8 or RSA key block is found, or the found key is not usable with the
certificates; the first key block of a supported kind wins; and a failed
periodic reload leaves the active material untouched, logs the failure, and
the loop keeps processing later ticks. -/
theorem c9_tls_load_failure_conditions :
    (∀ fs : TlsFs, (∃ e, load_tls_config fs = Except.error e) ↔
      (fs.certOpen = false ∨ fs.certsParse = none ∨ fs.keyOpen = false ∨
       fs.keyItems = none ∨
       (∃ items, fs.keyItems = some items ∧ findPrivateKey items = none) ∨
       fs.keyUsable = false)) ∧
    (∀ k rest, findPrivateKey (PemItem.pkcs8Key k :: rest) = some k) ∧
    (∀ k rest, findPrivateKey (PemItem.rsaKey k :: rest) = some k) ∧
    (∀ c rest, findPrivateKey (PemItem.certBlock c :: rest) = findPrivateKey rest) ∧
    (∀ rest, findPrivateKey (PemItem.otherBlock :: rest) = findPrivateKey rest) ∧
    (∀ init e rest, (reloadLoop init (Except.error e :: rest)).fst = init ∧
      (reloadLoop init (Except.error e :: rest)).snd =
        LogMsg.reloadFailed :: (reloadLoop init rest).snd) := by
  refine ⟨?_, fun k rest => rfl, fun k rest => rfl, fun c rest => rfl, fun rest => rfl, ?_⟩
  · intro fs
    unfold load_tls_config
    by_cases h1 : fs.certOpen = false
    · simp [h1]
    · have h1t : fs.certOpen = true := by revert h1; cases fs.certOpen <;> simp
      cases h2 : fs.certsParse with
      | none => simp [h1t, h2]
      | some certs =>
        by_cases h3 : fs.keyOpen = false
        · simp [h1t, h2, h3]
        · have h3t : fs.keyOpen = true := by revert h3; cases fs.keyOpen <;> simp
          cases h4 : fs.keyItems with
          | none => simp [h1t, h2, h3t, h4]
          | some items =>
            cases h5 : findPrivateKey items with
            | none => simp [h1t, h2, h3t, h4, h5]
            | some key =>
              cases h6 : fs.keyUsable with
              | false => simp [h1t, h2, h3t, h4, h5, h6]
              | true => simp [h1t, h2, h3t, h4, h5, h6]
  · intro init e rest
    constructor
    · exact reload_foldl_fst _ _
    · show (rest.foldl reload_tick (init, [LogMsg.reloadFailed])).snd = _
      rw [reload_foldl_log rest init [LogMsg.reloadFailed]]
      rfl

/-- Claim C10: whatever the collaborators and the request, every response
header the handler writes is one of the two success headers for markup and
images, or the not-found header; in particular a success header with meta
`application/octet-stream` is never written. -/
theorem c10_success_meta_invariant
    (ctx : Ctx) (pd : String) (cache : CacheS) (request : Option String)
    (h : String) (b : Option Body)
    (hw : (handle_connection ctx pd cache request).fst = Outcome.wrote h b) :
    (h = "20 text/gemini\r\n" ∨ h = "20 image/jpeg\r\n" ∨ h = "20 image/png\r\n" ∨
     h = "20 image/gif\r\n" ∨ h = "51 Not Found\r\n") ∧
    h ≠ "20 application/octet-stream\r\n" := by
  simp only [handle_connection] at hw
  repeat' split at hw
  all_goals first
    | (simp at hw; done)
    | (dsimp only at hw
       injection hw with hw1 hw2
       subst hw1
       exact ⟨by decide, by decide⟩)
    | (dsimp only at hw
       injection hw with hw1 hw2
       subst hw1
       have hmime := serve_static_mime (by assumption)
       subst hmime
       rcases dispatch_mime (by assumption) with hm | hm | hm <;> rw [hm] <;>
         exact ⟨by decide, by decide⟩)

/-- Claim C10, witness: the handler's markup success header on the root
path satisfies the invariant. -/
theorem c10_witness :
    ("20 text/gemini\r\n" = "20 text/gemini\r\n" ∨
     "20 text/gemini\r\n" = "20 image/jpeg\r\n" ∨
     "20 text/gemini\r\n" = "20 image/png\r\n" ∨
     "20 text/gemini\r\n" = "20 image/gif\r\n" ∨
     "20 text/gemini\r\n" = "51 Not Found\r\n") ∧
    "20 text/gemini\r\n" ≠ "20 application/octet-stream\r\n" :=
  c10_success_meta_invariant ctxRoot "pages" emptyCache
    (some "gemini://example.com/") "20 text/gemini\r\n" (some (Body.text ""))
    (by decide)

end Geser
